import Mathlib

/-!
Formal model of the bf6-settings-manager configuration edit engine.

This file gives a shallow embedding of the repository's core components:

* `ConfigSetting._create_pattern` (src/src/config_manager.py, lines 37-46):
  the regex `(<escaped key>\s+)([-+]?\d+\.?\d*)` is embedded by the scanner
  `matchAt`, and `re.sub` over a whole string by `subAll` (leftmost,
  non-overlapping matches, scanning resumes after each match).
* `ConfigManager.apply_settings` / `_atomic_write` / `get_current_values`
  (src/src/config_manager.py, lines 180-330): embedded as pure transition
  functions over an explicit filesystem state `FsState`, with IO failures
  injected through a `Faults` oracle that names the first raising operation.
* `FileProtector.temporary_writable` (src/app/src/file_protector.py,
  lines 91-137): embedded over a Nat attribute word, readonly bit 0x1.
* `BrightnessDetector._parse_hdr_metadata` (src/src/brightness_detector.py,
  lines 91-146): the CTA-861 extension walk, embedded over `List Nat` bytes.
  The structural stage returns the `max_luminance_code`; the float
  conversion `round(50 * 2**(code/32.0))` is stated over the reals where the
  source's binary64 computation is exact.

File paths, timestamps and the BOM decoding step are abstracted: a backup is
recorded by appending the copied content to `FsState.backups`, and a result's
`backup_path` field is modelled by the content the reported backup holds.
-/

set_option maxRecDepth 10000

/-- Python `\s` on the ASCII range, as used by the setting pattern
(profile files are ASCII text). -/
def isSpaceC (c : Char) : Bool :=
  c == ' ' || c == '\t' || c == '\n' || c == '\r' || c == '\x0b' || c == '\x0c'

/-- Python `\d` on the ASCII range. -/
def isDigitC (c : Char) : Bool :=
  '0' ≤ c && c ≤ '9'

/-- Match a literal prefix (the escaped setting key matches itself
literally), returning the remainder on success. -/
def stripPrefixL : List Char → List Char → Option (List Char)
  | [], s => some s
  | _ :: _, [] => none
  | p :: ps, c :: cs => if c = p then stripPrefixL ps cs else none

/-- Consume the optional sign `[-+]?` at the head, returning the consumed
part and the rest. -/
def splitSign (s : List Char) : List Char × List Char :=
  match s with
  | c :: cs => if c == '-' || c == '+' then ([c], cs) else ([], c :: cs)
  | [] => ([], [])

/-- Consume the optional dot `\.?` at the head, returning the consumed part
and the rest. -/
def splitDot (s : List Char) : List Char × List Char :=
  match s with
  | c :: cs => if c == '.' then ([c], cs) else ([], c :: cs)
  | [] => ([], [])

/-- Greedy match of `[-+]?\d+\.?\d*` at the head of the input: an optional
sign, one or more digits, an optional dot, further digits.  Returns the
matched literal (regex group 2) and the rest.  There is no backtracking in
the source pattern because each atom's first character set is disjoint from
the next atom's. -/
def matchNum (s : List Char) : Option (List Char × List Char) :=
  let d1 := (splitSign s).2.takeWhile isDigitC
  let r1 := (splitSign s).2.dropWhile isDigitC
  if d1 = [] then none
  else
    let d2 := (splitDot r1).2.takeWhile isDigitC
    let r2 := (splitDot r1).2.dropWhile isDigitC
    some ((splitSign s).1 ++ d1 ++ (splitDot r1).1 ++ d2, r2)

/-- Match the full setting pattern `(key\s+)([-+]?\d+\.?\d*)` at the head of
`s`: the literal key, then one or more whitespace characters (group 1 is
key + whitespace), then a numeric literal (group 2).  Returns
`(group1, group2, rest)`. -/
def matchAt (k : List Char) (s : List Char) : Option (List Char × List Char × List Char) :=
  match stripPrefixL k s with
  | none => none
  | some s1 =>
    let ws := s1.takeWhile isSpaceC
    if ws = [] then none
    else
      match matchNum (s1.dropWhile isSpaceC) with
      | none => none
      | some (num, rest) => some (k ++ ws, num, rest)

theorem stripPrefixL_eq_some {k s s1 : List Char} (h : stripPrefixL k s = some s1) :
    s = k ++ s1 := by
  induction k generalizing s with
  | nil =>
    simp only [stripPrefixL, Option.some.injEq] at h
    simp [h]
  | cons p ps ih =>
    cases s with
    | nil => simp [stripPrefixL] at h
    | cons c cs =>
      by_cases hc : c = p
      · simp only [stripPrefixL, if_pos hc] at h
        simp [hc, ih h]
      · simp [stripPrefixL, hc] at h

theorem splitSign_append (s : List Char) : (splitSign s).1 ++ (splitSign s).2 = s := by
  unfold splitSign
  cases s with
  | nil => rfl
  | cons c cs =>
    by_cases h : (c == '-' || c == '+') = true
    · simp [h]
    · simp [h]

theorem splitDot_append (s : List Char) : (splitDot s).1 ++ (splitDot s).2 = s := by
  unfold splitDot
  cases s with
  | nil => rfl
  | cons c cs =>
    by_cases h : (c == '.') = true
    · simp [h]
    · simp [h]

theorem matchNum_eq_some {s num rest : List Char} (h : matchNum s = some (num, rest)) :
    s = num ++ rest ∧ num ≠ [] := by
  unfold matchNum at h
  by_cases hd : (splitSign s).2.takeWhile isDigitC = []
  · simp [hd] at h
  · simp only [hd, if_neg, if_false] at h
    rw [Option.some.injEq, Prod.mk.injEq] at h
    obtain ⟨hnum, hrest⟩ := h
    constructor
    · rw [← hnum, ← hrest]
      conv_lhs => rw [← splitSign_append s]
      conv_lhs =>
        rw [← List.takeWhile_append_dropWhile (p := isDigitC) (l := (splitSign s).2)]
      conv_lhs =>
        rw [← splitDot_append ((splitSign s).2.dropWhile isDigitC)]
      conv_lhs =>
        rw [← List.takeWhile_append_dropWhile (p := isDigitC)
          (l := (splitDot ((splitSign s).2.dropWhile isDigitC)).2)]
      simp [List.append_assoc]
    · rw [← hnum]
      intro hcon
      rcases List.append_eq_nil.mp hcon with ⟨h1, _⟩
      rcases List.append_eq_nil.mp h1 with ⟨h2, _⟩
      rcases List.append_eq_nil.mp h2 with ⟨_, h3⟩
      exact hd h3

theorem matchAt_eq_some {k s g num rest : List Char}
    (h : matchAt k s = some (g, num, rest)) :
    s = g ++ num ++ rest ∧ num ≠ [] ∧ ∃ w, g = k ++ w ∧ w ≠ [] := by
  unfold matchAt at h
  cases hstrip : stripPrefixL k s with
  | none => rw [hstrip] at h; simp at h
  | some s1 =>
    rw [hstrip] at h
    simp only [] at h
    by_cases hws : s1.takeWhile isSpaceC = []
    · simp [hws] at h
    · simp only [hws, if_neg, if_false] at h
      cases hnum : matchNum (s1.dropWhile isSpaceC) with
      | none => rw [hnum] at h; simp at h
      | some p =>
        obtain ⟨num', rest'⟩ := p
        rw [hnum] at h
        rw [Option.some.injEq, Prod.mk.injEq, Prod.mk.injEq] at h
        obtain ⟨hg, rfl, rfl⟩ := h
        obtain ⟨hsplit2, hne⟩ := matchNum_eq_some hnum
        refine ⟨?_, hne, s1.takeWhile isSpaceC, hg.symm, hws⟩
        rw [stripPrefixL_eq_some hstrip, ← hg]
        conv_lhs =>
          rw [← List.takeWhile_append_dropWhile (p := isSpaceC) (l := s1), hsplit2]
        simp [List.append_assoc]

theorem matchAt_nil {k : List Char} : matchAt k [] = none := by
  cases k with
  | nil => simp [matchAt, stripPrefixL]
  | cons p ps => simp [matchAt, stripPrefixL]

theorem matchAt_rest_lt {k s g num rest : List Char}
    (h : matchAt k s = some (g, num, rest)) : rest.length < s.length := by
  obtain ⟨hsplit, hne, _⟩ := matchAt_eq_some h
  rw [hsplit]
  have : 0 < num.length := List.length_pos.mpr hne
  simp only [List.length_append]
  omega

/-- Fuelled worker for `re.sub`: scan left to right; at a match emit
group 1 followed by the replacement and resume after the match, otherwise
keep the character and move one position right.  The source replacement
template is `\g<1>{new_value}` (`ConfigSetting.create_replacement`,
src/src/config_manager.py line 44-46), so a match contributes
`group1 ++ v`.  Fuel at least the input length is always sufficient
because every step strictly shrinks the input. -/
def subN (k v : List Char) : Nat → List Char → List Char
  | 0, s => s
  | _ + 1, [] => []
  | fuel + 1, c :: cs =>
    match matchAt k (c :: cs) with
    | some (g1, _, rest) => g1 ++ v ++ subN k v fuel rest
    | none => c :: subN k v fuel cs

/-- Embedding of `re.sub(setting.pattern, setting.create_replacement(v),
content, flags=re.MULTILINE)`.  The MULTILINE flag only alters `^`/`$`,
which the pattern does not contain. -/
def subAll (k v s : List Char) : List Char :=
  subN k v s.length s

theorem subN_fuel_eq (k v : List Char) :
    ∀ (n f1 f2 : Nat) (s : List Char), s.length ≤ n → s.length ≤ f1 → s.length ≤ f2 →
      subN k v f1 s = subN k v f2 s := by
  intro n
  induction n with
  | zero =>
    intro f1 f2 s hn _ _
    have : s = [] := List.length_eq_zero.mp (Nat.le_zero.mp hn)
    subst this
    cases f1 <;> cases f2 <;> rfl
  | succ m ih =>
    intro f1 f2 s hn h1 h2
    cases s with
    | nil => cases f1 <;> cases f2 <;> rfl
    | cons c cs =>
      simp only [List.length_cons] at hn h1 h2
      cases f1 with
      | zero => omega
      | succ a =>
        cases f2 with
        | zero => omega
        | succ b =>
          cases hm : matchAt k (c :: cs) with
          | some p =>
            obtain ⟨g1, num, rest⟩ := p
            have hlt : rest.length < (c :: cs).length := matchAt_rest_lt hm
            simp only [List.length_cons] at hlt
            simp only [subN, hm]
            rw [ih a b rest (by omega) (by omega) (by omega)]
          | none =>
            simp only [subN, hm]
            rw [ih a b cs (by omega) (by omega) (by omega)]

theorem subN_eq_subAll (k v : List Char) (f : Nat) (s : List Char) (h : s.length ≤ f) :
    subN k v f s = subAll k v s :=
  subN_fuel_eq k v f f s.length s h h le_rfl

theorem subAll_nil (k v : List Char) : subAll k v [] = [] := rfl

theorem subAll_cons_of_none {k v : List Char} {c : Char} {cs : List Char}
    (h : matchAt k (c :: cs) = none) :
    subAll k v (c :: cs) = c :: subAll k v cs := by
  simp only [subAll, List.length_cons, subN, h]

theorem subAll_of_match {k v s g1 num rest : List Char}
    (h : matchAt k s = some (g1, num, rest)) :
    subAll k v s = g1 ++ v ++ subAll k v rest := by
  cases s with
  | nil => rw [matchAt_nil] at h; exact absurd h (by simp)
  | cons c cs =>
    have hlt : rest.length < (c :: cs).length := matchAt_rest_lt h
    simp only [List.length_cons] at hlt
    simp only [subAll, List.length_cons, subN, h]
    rw [subN_fuel_eq k v cs.length cs.length rest.length rest (by omega) (by omega) le_rfl]

/-- No match of the pattern for key `k` starts anywhere in `s`. -/
def NoMatchIn (k s : List Char) : Prop :=
  ∀ i, matchAt k (s.drop i) = none

theorem noMatchIn_iff {k s : List Char} :
    NoMatchIn k s ↔ ∀ i, i < s.length → matchAt k (s.drop i) = none := by
  constructor
  · intro h i _
    exact h i
  · intro h i
    by_cases hi : i < s.length
    · exact h i hi
    · rw [List.drop_eq_nil_of_le (by omega)]
      exact matchAt_nil

instance (k s : List Char) : Decidable (NoMatchIn k s) :=
  decidable_of_iff _ noMatchIn_iff.symm

theorem subAll_append_of_none {k v : List Char} :
    ∀ (pre rest : List Char),
      (∀ i, i < pre.length → matchAt k ((pre ++ rest).drop i) = none) →
      subAll k v (pre ++ rest) = pre ++ subAll k v rest := by
  intro pre
  induction pre with
  | nil => intro rest _; rfl
  | cons c cs ih =>
    intro rest h
    have h0 : matchAt k (c :: (cs ++ rest)) = none := by
      have := h 0 (by simp)
      simpa using this
    rw [List.cons_append, subAll_cons_of_none h0, ih rest]
    · rfl
    · intro i hi
      have := h (i + 1) (by simp; omega)
      simpa using this

theorem subAll_of_noMatchIn {k v s : List Char} (h : NoMatchIn k s) :
    subAll k v s = s := by
  have := subAll_append_of_none (k := k) (v := v) s [] (by
    intro i hi
    have := h i
    simpa using this)
  simpa [subAll_nil] using this

/-- Embedding of `re.search(pattern, content, re.MULTILINE)` followed by
`match.group(2)` (`ConfigManager.get_current_values`,
src/src/config_manager.py lines 319-324): the captured numeric literal of
the leftmost match, if any. -/
def findFirst (k : List Char) : List Char → Option (List Char)
  | [] => none
  | c :: cs =>
    match matchAt k (c :: cs) with
    | some (_, num, _) => some num
    | none => findFirst k cs

theorem findFirst_append_of_none {k : List Char} :
    ∀ (pre rest : List Char),
      (∀ i, i < pre.length → matchAt k ((pre ++ rest).drop i) = none) →
      findFirst k (pre ++ rest) = findFirst k rest := by
  intro pre
  induction pre with
  | nil => intro rest _; rfl
  | cons c cs ih =>
    intro rest h
    have h0 : matchAt k (c :: (cs ++ rest)) = none := by
      have := h 0 (by simp)
      simpa using this
    rw [List.cons_append]
    simp only [findFirst, h0]
    exact ih rest (by
      intro i hi
      have := h (i + 1) (by simp; omega)
      simpa using this)

theorem findFirst_of_match {k s g num rest : List Char}
    (h : matchAt k s = some (g, num, rest)) :
    findFirst k s = some num := by
  cases s with
  | nil => rw [matchAt_nil] at h; exact absurd h (by simp)
  | cons c cs => simp only [findFirst, h]

theorem findFirst_of_noMatchIn {k s : List Char} (h : NoMatchIn k s) :
    findFirst k s = none := by
  have := findFirst_append_of_none (k := k) s [] (by
    intro i hi
    have := h i
    simpa using this)
  simpa [findFirst] using this

/-- One occurrence site of a setting pattern in a profile text: the
whitespace after the key (regex group 1 minus the key) and the numeric
literal (regex group 2). -/
structure Site where
  ws : List Char
  num : List Char
deriving DecidableEq

/-- Assemble a profile text from pattern-free gaps and match sites:
`gap₀ ++ k ++ ws₁ ++ num₁ ++ gap₁ ++ k ++ ws₂ ++ num₂ ++ … ++ tail`. -/
def buildContent (k : List Char) : List (List Char × Site) → List Char → List Char
  | [], tail => tail
  | (gap, st) :: rest, tail => gap ++ k ++ st.ws ++ st.num ++ buildContent k rest tail

/-- The same text with every site's numeric literal replaced by `v`. -/
def buildSub (k v : List Char) : List (List Char × Site) → List Char → List Char
  | [], tail => tail
  | (gap, st) :: rest, tail => gap ++ k ++ st.ws ++ v ++ buildSub k v rest tail

/-- A decomposition is good when no match starts inside a gap or the tail,
and each listed site is matched exactly as listed (consuming `k ++ ws` as
group 1, `num` as group 2, and leaving exactly the remaining text). -/
def GoodDecomp (k : List Char) : List (List Char × Site) → List Char → Prop
  | [], tail => NoMatchIn k tail
  | (gap, st) :: rest, tail =>
      (∀ i, i < gap.length →
        matchAt k ((gap ++ k ++ st.ws ++ st.num ++ buildContent k rest tail).drop i) = none)
      ∧ matchAt k (k ++ st.ws ++ st.num ++ buildContent k rest tail)
          = some (k ++ st.ws, st.num, buildContent k rest tail)
      ∧ GoodDecomp k rest tail

instance instDecidableGoodDecomp (k : List Char) :
    ∀ (segs : List (List Char × Site)) (tail : List Char),
      Decidable (GoodDecomp k segs tail)
  | [], tail => inferInstanceAs (Decidable (NoMatchIn k tail))
  | (gap, st) :: rest, tail =>
      haveI := instDecidableGoodDecomp k rest tail
      inferInstanceAs (Decidable (_ ∧ _ ∧ _))

theorem subAll_goodDecomp {k v : List Char} :
    ∀ (segs : List (List Char × Site)) (tail : List Char),
      GoodDecomp k segs tail →
      subAll k v (buildContent k segs tail) = buildSub k v segs tail := by
  intro segs
  induction segs with
  | nil =>
    intro tail h
    exact subAll_of_noMatchIn h
  | cons p rest ih =>
    obtain ⟨gap, st⟩ := p
    intro tail h
    obtain ⟨hgap, hmatch, hrest⟩ := h
    show subAll k v (gap ++ k ++ st.ws ++ st.num ++ buildContent k rest tail) =
      gap ++ k ++ st.ws ++ v ++ buildSub k v rest tail
    have hre : gap ++ k ++ st.ws ++ st.num ++ buildContent k rest tail =
        gap ++ (k ++ st.ws ++ st.num ++ buildContent k rest tail) := by
      simp [List.append_assoc]
    rw [hre]
    rw [subAll_append_of_none gap (k ++ st.ws ++ st.num ++ buildContent k rest tail) (by
      intro i hi
      have := hgap i hi
      rw [hre] at this
      exact this)]
    rw [subAll_of_match (by
      have := hmatch
      simpa [List.append_assoc] using this)]
    rw [ih tail hrest]
    simp [List.append_assoc]

theorem findFirst_goodDecomp_head {k : List Char} {gap : List Char} {st : Site}
    {rest : List (List Char × Site)} {tail : List Char}
    (h : GoodDecomp k ((gap, st) :: rest) tail) :
    findFirst k (buildContent k ((gap, st) :: rest) tail) = some st.num := by
  obtain ⟨hgap, hmatch, _⟩ := h
  show findFirst k (gap ++ k ++ st.ws ++ st.num ++ buildContent k rest tail) = some st.num
  have hre : gap ++ k ++ st.ws ++ st.num ++ buildContent k rest tail =
      gap ++ (k ++ st.ws ++ st.num ++ buildContent k rest tail) := by
    simp [List.append_assoc]
  rw [hre]
  rw [findFirst_append_of_none gap (k ++ st.ws ++ st.num ++ buildContent k rest tail) (by
    intro i hi
    have := hgap i hi
    rw [hre] at this
    exact this)]
  exact findFirst_of_match (by
    have := hmatch
    simpa [List.append_assoc] using this)

/-- Replace every site's numeric literal by `v` inside the decomposition
itself (used to re-run a request on already-substituted content). -/
def sitesSub (v : List Char) (segs : List (List Char × Site)) :
    List (List Char × Site) :=
  segs.map (fun p => (p.1, ⟨p.2.ws, v⟩))

theorem buildContent_sitesSub (k v : List Char) :
    ∀ (segs : List (List Char × Site)) (tail : List Char),
      buildContent k (sitesSub v segs) tail = buildSub k v segs tail := by
  intro segs
  induction segs with
  | nil => intro tail; rfl
  | cons p rest ih =>
    obtain ⟨gap, st⟩ := p
    intro tail
    show gap ++ k ++ st.ws ++ v ++ buildContent k (sitesSub v rest) tail =
      gap ++ k ++ st.ws ++ v ++ buildSub k v rest tail
    rw [ih tail]

theorem buildSub_sitesSub (k v : List Char) :
    ∀ (segs : List (List Char × Site)) (tail : List Char),
      buildSub k v (sitesSub v segs) tail = buildSub k v segs tail := by
  intro segs
  induction segs with
  | nil => intro tail; rfl
  | cons p rest ih =>
    obtain ⟨gap, st⟩ := p
    intro tail
    show gap ++ k ++ st.ws ++ v ++ buildSub k v (sitesSub v rest) tail =
      gap ++ k ++ st.ws ++ v ++ buildSub k v rest tail
    rw [ih tail]

/-- Embedding of `ConfigSetting` (src/src/config_manager.py, lines 20-46).
The derived regex pattern is realised by `matchAt key.data`. -/
structure ConfigSetting where
  key : String
  default_value : String
  description : String
deriving DecidableEq

/-- Embedding of the `SETTINGS` registry (src/src/config_manager.py,
lines 49-123), as an association list in source order; the Python dict has
unique keys and preserves insertion order. -/
def SETTINGS : List (String × ConfigSetting) :=
  [("hdr_peak_brightness",
      ⟨"GstRender.DisplayMappingHdr10PeakLuma", "400.000000", "HDR Peak Brightness (nits)"⟩),
   ("weapon_dof", ⟨"GstRender.WeaponDOF", "0", "Weapon Depth of Field"⟩),
   ("chromatic_aberration", ⟨"GstRender.ChromaticAberration", "0", "Chromatic Aberration"⟩),
   ("film_grain", ⟨"GstRender.FilmGrain", "0", "Film Grain"⟩),
   ("vignette", ⟨"GstRender.Vignette", "0", "Vignette"⟩),
   ("lens_distortion", ⟨"GstRender.LensDistortion", "0", "Lens Distortion"⟩),
   ("motion_blur_weapon", ⟨"GstRender.MotionBlurWeapon", "0.000000", "Motion Blur - Weapon"⟩),
   ("motion_blur_world", ⟨"GstRender.MotionBlurWorld", "0.000000", "Motion Blur - World"⟩),
   ("nvidia_low_latency", ⟨"GstRender.NvidiaLowLatency", "1", "NVIDIA Low Latency Mode"⟩),
   ("amd_low_latency", ⟨"GstRender.AMDLowLatency", "1", "AMD Low Latency Mode"⟩),
   ("intel_low_latency", ⟨"GstRender.IntelLowLatency", "1", "Intel Low Latency Mode"⟩),
   ("future_frame_rendering", ⟨"GstRender.FutureFrameRendering", "0", "Future Frame Rendering"⟩),
   ("tinnitus", ⟨"GstAudio.Volume_Tinnitus", "0.000000", "Tinnitus Effect Volume"⟩)]

/-- The per-request loop of `apply_settings` (src/src/config_manager.py,
lines 213-233): for each `(setting_id, new_value)` pair in request order,
unknown ids are skipped with a logged warning; otherwise `re.sub` is run on
the current working content, and when the text actually changed the change
description `f"{setting.description}: {new_value}"` is recorded and the
working content updated.  Returns the final content and the change list. -/
def applyLoop : List (String × String) → List Char → List Char × List String
  | [], content => (content, [])
  | (id, v) :: rest, content =>
    match SETTINGS.lookup id with
    | none => applyLoop rest content
    | some s =>
      let nc := subAll s.key.data v.data content
      if nc = content then applyLoop rest content
      else
        let r := applyLoop rest nc
        (r.1, (s.description ++ ": " ++ v) :: r.2)

/-- The operations inside `apply_settings`'s `try` block that can raise, in
program order.  `substitute` stands for an exception raised inside the
substitution loop (for example a malformed replacement template). -/
inductive FaultPoint
  | backupCopy
  | readFile
  | substitute
  | mkstemp
  | tempWrite
  | replace
deriving DecidableEq

/-- Failure oracle for one `apply_settings` call: `fail` is the first
operation that raises (if reached), `msg` the raised exception's `str(e)`,
and `protectFails` makes `FileProtector.set_readonly` return `False`
(that function catches its own errors and never raises,
src/app/src/file_protector.py lines 17-43). -/
structure Faults where
  fail : Option FaultPoint
  msg : String
  protectFails : Bool
deriving DecidableEq

/-- Observable filesystem state for one config file.  `configSet` is
`self.config_path is not None`; `backups` lists the contents of the backup
copies made so far, in creation order (backup paths are timestamped names
alongside the original, abstracted here to the copied content);
`tempExists`/`tempContent` describe the `.tmp_` file of an in-flight
`_atomic_write`. -/
structure FsState where
  configSet : Bool
  configExists : Bool
  content : List Char
  readonly : Bool
  backups : List (List Char)
  tempExists : Bool
  tempContent : List Char
deriving DecidableEq

/-- Result of `apply_settings`: the Python dict `{success, message,
changes?, backup_path?}`.  A missing `changes` key is modelled by `[]` and
a missing `backup_path` key by `none`; `backup_path` itself is abstracted
to the content held by the reported backup (see the file comment).  The
success dict's `config_path` entry is not modelled. -/
structure ApplyResult where
  success : Bool
  message : String
  changes : List String
  backup : Option (List Char)
deriving DecidableEq

/-- Embedding of `ConfigManager._atomic_write` (src/src/config_manager.py,
lines 265-301): clear the read-only bit if set, create a temp file in the
target directory, write the new content to it, then `os.replace` it onto
the target; on any failure the temp file is unlinked and the exception
re-raised (the `finally` clause only closes the descriptor).  The returned
Bool is `true` iff no exception was raised.  Note the cleared read-only
bit is never restored here. -/
def atomicWrite (f : Faults) (st : FsState) (nc : List Char) : FsState × Bool :=
  let st1 := if st.readonly then { st with readonly := false } else st
  if f.fail = some FaultPoint.mkstemp then (st1, false)
  else
    let st2 := { st1 with tempExists := true, tempContent := [] }
    if f.fail = some FaultPoint.tempWrite then
      ({ st2 with tempExists := false, tempContent := [] }, false)
    else
      let st3 := { st2 with tempContent := nc }
      if f.fail = some FaultPoint.replace then
        ({ st3 with tempExists := false, tempContent := [] }, false)
      else
        ({ st3 with content := nc, tempExists := false, tempContent := [] }, true)

/-- Embedding of `ConfigManager.apply_settings` (src/src/config_manager.py,
lines 180-263) as a state transition: existence precondition, backup,
read, substitution loop, no-change guard, atomic write, optional
re-protection; every exception inside the `try` block is converted to a
`success: False` result with message `"Error: " ++ str(e)`. -/
def applySettings (f : Faults) (req : List (String × String)) (ro : Bool)
    (st : FsState) : FsState × ApplyResult :=
  if ¬(st.configSet = true ∧ st.configExists = true) then
    (st, ⟨false, "Config file not found. Please locate it first.", [], none⟩)
  else if f.fail = some FaultPoint.backupCopy then
    (st, ⟨false, "Error: " ++ f.msg, [], none⟩)
  else
    let st1 := { st with backups := st.backups ++ [st.content] }
    if f.fail = some FaultPoint.readFile then
      (st1, ⟨false, "Error: " ++ f.msg, [], none⟩)
    else if f.fail = some FaultPoint.substitute then
      (st1, ⟨false, "Error: " ++ f.msg, [], none⟩)
    else
      let lr := applyLoop req st1.content
      if lr.1 = st1.content then
        (st1, ⟨false, "No changes applied (patterns may not match)", [], some st.content⟩)
      else
        let aw := atomicWrite f st1 lr.1
        if aw.2 = false then
          (aw.1, ⟨false, "Error: " ++ f.msg, [], none⟩)
        else
          let st3 :=
            if ro then
              (if f.protectFails then aw.1 else { aw.1 with readonly := true })
            else aw.1
          (st3, ⟨true, "Successfully applied " ++ toString lr.2.length ++ " setting(s)",
            lr.2, some st.content⟩)

/-- Embedding of `ConfigManager.get_current_values`
(src/src/config_manager.py, lines 303-330): an empty mapping when the path
is unset or missing, otherwise for every registered setting the captured
group 2 of the first pattern match, or `None`. -/
def getCurrentValues (st : FsState) : List (String × Option String) :=
  if st.configSet = true ∧ st.configExists = true then
    SETTINGS.map (fun p => (p.1, (findFirst p.2.key.data st.content).map String.mk))
  else []

/-- Windows read-only attribute bit (`win32con.FILE_ATTRIBUTE_READONLY`). -/
def FILE_ATTRIBUTE_READONLY : Nat := 1

/-- Clear bit 0x1 of an attribute word: `attrs & ~FILE_ATTRIBUTE_READONLY`
for the read-only bit. -/
def clearReadonlyBit (attrs : Nat) : Nat :=
  attrs - (attrs &&& FILE_ATTRIBUTE_READONLY)

/-- Embedding of `FileProtector.temporary_writable`
(src/app/src/file_protector.py, lines 91-137) over the file's attribute
word: record the original attributes; if read-only, clear the bit; run the
caller's action (which sees the current attribute word and returns a
possibly raised exception together with the attribute word it leaves
behind); in the `finally` block, if the file had been read-only, write
back the full original attribute word.  The exception, if any, propagates
unchanged. -/
def temporary_writable (attrs0 : Nat) (action : Nat → Option String × Nat) :
    Option String × Nat :=
  let wasReadonly : Bool := attrs0 &&& FILE_ATTRIBUTE_READONLY != 0
  let attrs1 := if wasReadonly then clearReadonlyBit attrs0 else attrs0
  let res := action attrs1
  let finalAttrs := if wasReadonly then attrs0 else res.2
  (res.1, finalAttrs)

/-- Split a byte string into successive full 128-byte chunks, dropping a
trailing partial chunk: the `for offset in range(128, len, 128)` /
`if offset + 128 > len: break` loop of `_parse_hdr_metadata`
(src/src/brightness_detector.py, lines 106-110).  The fuel argument only
bounds recursion; any fuel of at least the input length is sufficient. -/
def chunk128 : Nat → List Nat → List (List Nat)
  | 0, _ => []
  | fuel + 1, s =>
    if 128 ≤ s.length then s.take 128 :: chunk128 fuel (s.drop 128)
    else []

/-- The 128-byte extension blocks after the base EDID block. -/
def extBlocks (edid : List Nat) : List (List Nat) :=
  chunk128 edid.length (edid.drop 128)

/-- The data-block walk inside one CEA extension
(src/src/brightness_detector.py, lines 116-142): while
`pos < dtd_offset and pos < len(extension) - 1`, read the header byte
(top 3 bits: tag, bottom 5: payload length); a tag-7 block with positive
length carries an extended tag at `pos+1`; extended tag 6 with length ≥ 4
is HDR static metadata whose byte at `pos+4` is the max-luminance code,
returned immediately when positive; otherwise advance by `length + 1`,
stopping when that runs past the block.  Fuel of at least `dtd` bounds the
walk since `pos` strictly increases while `pos < dtd`. -/
def walkN (ext : List Nat) (dtd : Nat) : Nat → Nat → Option Nat
  | 0, _ => none
  | fuel + 1, pos =>
    if pos < dtd ∧ pos < ext.length - 1 then
      let header := ext.getD pos 0
      let tag := (header >>> 5) &&& 7
      let blen := header &&& 31
      let hit :=
        if tag = 7 ∧ 0 < blen ∧ pos + 1 < ext.length then
          (if ext.getD (pos + 1) 0 = 6 ∧ 4 ≤ blen ∧ pos + 4 < ext.length then
            (if 0 < ext.getD (pos + 4) 0 then some (ext.getD (pos + 4) 0) else none)
          else none)
        else none
      match hit with
      | some c => some c
      | none =>
        let pos1 := pos + blen + 1
        if ext.length ≤ pos1 then none else walkN ext dtd fuel pos1
    else none

/-- Scan one extension block: the DTD offset is byte 2 and the data-block
collection starts at byte 4. -/
def scanBlock (ext : List Nat) : Option Nat :=
  walkN ext (ext.getD 2 0) (ext.getD 2 0) 4

/-- First extension block that is a CEA extension (first byte 0x02) and
yields a positive max-luminance code wins; other blocks are skipped. -/
def firstHdrCode : List (List Nat) → Option Nat
  | [] => none
  | b :: bs =>
    match (if b.headD 0 = 2 then scanBlock b else none) with
    | some c => some c
    | none => firstHdrCode bs

/-- Structural stage of `BrightnessDetector._parse_hdr_metadata`
(src/src/brightness_detector.py, lines 91-146): inputs shorter than 256
bytes yield nothing; otherwise the first positive max-luminance code found
across CEA extension blocks.  The source converts this code to nits with
the binary64 expression `round(50 * 2 ** (code / 32.0))` before returning;
that final conversion is stated separately over ℝ (exact at the arguments
the claims use, where the float computation is itself exact). -/
def parseHdrMaxLum (edid : List Nat) : Option Nat :=
  if edid.length < 256 then none else firstHdrCode (extBlocks edid)

theorem applyLoop_single {id : String} {s : ConfigSetting} {v : String}
    (hid : SETTINGS.lookup id = some s) (c : List Char) :
    applyLoop [(id, v)] c =
      (subAll s.key.data v.data c,
       if subAll s.key.data v.data c = c then []
       else [s.description ++ ": " ++ v]) := by
  simp only [applyLoop, hid]
  by_cases h : subAll s.key.data v.data c = c
  · simp [applyLoop, h]
  · simp [applyLoop, h]

theorem applySettings_not_found {f : Faults} {req : List (String × String)}
    {ro : Bool} {st : FsState}
    (hcfg : ¬(st.configSet = true ∧ st.configExists = true)) :
    applySettings f req ro st =
      (st, ⟨false, "Config file not found. Please locate it first.", [], none⟩) := by
  simp only [applySettings, if_pos hcfg]

theorem atomicWrite_ok {f : Faults} {st : FsState} {nc : List Char}
    (hf : f.fail = none) :
    atomicWrite f st nc =
      ({ st with
          content := nc
          readonly := false
          tempExists := false
          tempContent := [] }, true) := by
  obtain ⟨c1, c2, c3, rdo, c5, c6, c7⟩ := st
  cases rdo <;> simp [atomicWrite, hf]

theorem atomicWrite_fault {f : Faults} {st : FsState} {nc : List Char} {p : FaultPoint}
    (hp : f.fail = some p)
    (hw : p = FaultPoint.mkstemp ∨ p = FaultPoint.tempWrite ∨ p = FaultPoint.replace)
    (ht : st.tempExists = false) (htc : st.tempContent = []) :
    atomicWrite f st nc =
      ({ st with
          readonly := false
          tempExists := false
          tempContent := [] }, false) := by
  obtain ⟨c1, c2, c3, rdo, c5, c6, c7⟩ := st
  simp only [] at ht htc
  subst ht
  subst htc
  rcases hw with rfl | rfl | rfl <;> cases rdo <;> simp [atomicWrite, hp]

theorem applySettings_nochange {f : Faults} {req : List (String × String)}
    {ro : Bool} {st : FsState}
    (hcfg : st.configSet = true ∧ st.configExists = true) (hf : f.fail = none)
    (hnc : (applyLoop req st.content).1 = st.content) :
    applySettings f req ro st =
      ({ st with backups := st.backups ++ [st.content] },
       ⟨false, "No changes applied (patterns may not match)", [], some st.content⟩) := by
  simp [applySettings, hcfg, hf, hnc]

theorem applySettings_change {f : Faults} {req : List (String × String)}
    {ro : Bool} {st : FsState}
    (hcfg : st.configSet = true ∧ st.configExists = true) (hf : f.fail = none)
    (hch : (applyLoop req st.content).1 ≠ st.content) :
    applySettings f req ro st =
      ({ st with
          backups := st.backups ++ [st.content]
          content := (applyLoop req st.content).1
          readonly := ro && !f.protectFails
          tempExists := false
          tempContent := [] },
       ⟨true,
        "Successfully applied " ++ toString (applyLoop req st.content).2.length ++
          " setting(s)",
        (applyLoop req st.content).2, some st.content⟩) := by
  obtain ⟨cs, ce, co, rdo, bk, te, tc⟩ := st
  obtain ⟨rfl, rfl⟩ := hcfg
  simp only [] at hch
  have haw := @atomicWrite_ok f ⟨true, true, co, rdo, bk ++ [co], te, tc⟩
    ((applyLoop req co).1) hf
  cases ro <;> cases hpf : f.protectFails <;>
    simp [applySettings, hf, hch, haw, hpf]

theorem applySettings_earlyFault {f : Faults} {req : List (String × String)}
    {ro : Bool} {st : FsState} {p : FaultPoint}
    (hcfg : st.configSet = true ∧ st.configExists = true) (hp : f.fail = some p)
    (he : p = FaultPoint.backupCopy ∨ p = FaultPoint.readFile ∨ p = FaultPoint.substitute) :
    (applySettings f req ro st).2 = ⟨false, "Error: " ++ f.msg, [], none⟩ ∧
    (applySettings f req ro st).1.content = st.content ∧
    (applySettings f req ro st).1.readonly = st.readonly ∧
    (applySettings f req ro st).1.tempExists = st.tempExists ∧
    (applySettings f req ro st).1.tempContent = st.tempContent := by
  rcases he with rfl | rfl | rfl <;> simp [applySettings, hcfg, hp]

theorem applySettings_writeFault {f : Faults} {req : List (String × String)}
    {ro : Bool} {st : FsState} {p : FaultPoint}
    (hcfg : st.configSet = true ∧ st.configExists = true) (hp : f.fail = some p)
    (hw : p = FaultPoint.mkstemp ∨ p = FaultPoint.tempWrite ∨ p = FaultPoint.replace)
    (hch : (applyLoop req st.content).1 ≠ st.content)
    (ht : st.tempExists = false) (htc : st.tempContent = []) :
    applySettings f req ro st =
      ({ st with
          backups := st.backups ++ [st.content]
          readonly := false
          tempExists := false
          tempContent := [] },
       ⟨false, "Error: " ++ f.msg, [], none⟩) := by
  obtain ⟨cs, ce, co, rdo, bk, te, tc⟩ := st
  obtain ⟨rfl, rfl⟩ := hcfg
  simp only [] at hch ht htc
  subst ht
  subst htc
  have haw := @atomicWrite_fault f ⟨true, true, co, rdo, bk ++ [co], false, []⟩
    ((applyLoop req co).1) p hp hw rfl rfl
  have hne1 : f.fail ≠ some FaultPoint.backupCopy := by
    rcases hw with rfl | rfl | rfl <;> simp [hp]
  have hne2 : f.fail ≠ some FaultPoint.readFile := by
    rcases hw with rfl | rfl | rfl <;> simp [hp]
  have hne3 : f.fail ≠ some FaultPoint.substitute := by
    rcases hw with rfl | rfl | rfl <;> simp [hp]
  simp [applySettings, hne1, hne2, hne3, hch, haw]

theorem lookup_map_snd {α β γ : Type} [BEq α] [LawfulBEq α]
    (l : List (α × β)) (g : α → β → γ) (a : α) :
    (l.map (fun p => (p.1, g p.1 p.2))).lookup a = (l.lookup a).map (g a) := by
  induction l with
  | nil => rfl
  | cons p t ih =>
    obtain ⟨k, b⟩ := p
    by_cases hk : (a == k) = true
    · have : a = k := eq_of_beq hk
      subst this
      simp [List.lookup]
    · simp only [List.map, List.lookup, hk]
      exact ih

theorem getCurrentValues_lookup {st : FsState} {id : String} {s : ConfigSetting}
    (hcfg : st.configSet = true ∧ st.configExists = true)
    (hid : SETTINGS.lookup id = some s) :
    (getCurrentValues st).lookup id =
      some ((findFirst s.key.data st.content).map String.mk) := by
  unfold getCurrentValues
  rw [if_pos hcfg]
  rw [lookup_map_snd SETTINGS (fun _ s0 => (findFirst s0.key.data st.content).map String.mk) id]
  rw [hid]
  rfl

/-- C5: when the config path is unset or the file does not exist,
`apply_settings` returns a failure result with the config-file-not-found
message and the filesystem state is returned completely untouched — no
backup is created, no temporary file is made, no file is modified — for
every request, fault oracle and read-only flag. -/
theorem C5_missing_config_no_disk_touch (f : Faults) (req : List (String × String))
    (ro : Bool) (st : FsState)
    (h : st.configSet = false ∨ st.configExists = false) :
    applySettings f req ro st =
      (st, ⟨false, "Config file not found. Please locate it first.", [], none⟩) := by
  apply applySettings_not_found
  rcases h with h | h <;> simp [h]

theorem C5_missing_config_no_disk_touch_witness :
    applySettings ⟨none, "", false⟩ [("weapon_dof", "0")] true
        ⟨true, false, [], false, [], false, []⟩ =
      (⟨true, false, [], false, [], false, []⟩,
       ⟨false, "Config file not found. Please locate it first.", [], none⟩) :=
  C5_missing_config_no_disk_touch _ _ _ _ (Or.inr rfl)

/-- C4: on every fault-free apply call against an existing file, a backup
copy of the pre-call content is created (appended to the backup list)
before any mutation, whatever the request; and when no requested setting's
pattern changes the text, the call returns success `false` with the
no-changes message and the backup path while the target file, its
read-only bit and the temp-file state are untouched. -/
theorem C4_backup_always_even_on_noop (f : Faults) (req : List (String × String))
    (ro : Bool) (st : FsState)
    (hcfg : st.configSet = true ∧ st.configExists = true) (hf : f.fail = none) :
    (applySettings f req ro st).1.backups = st.backups ++ [st.content] ∧
    ((applyLoop req st.content).1 = st.content →
      applySettings f req ro st =
        ({ st with backups := st.backups ++ [st.content] },
         ⟨false, "No changes applied (patterns may not match)", [], some st.content⟩)) := by
  constructor
  · by_cases hnc : (applyLoop req st.content).1 = st.content
    · rw [applySettings_nochange hcfg hf hnc]
    · rw [applySettings_change hcfg hf hnc]
  · intro hnc
    exact applySettings_nochange hcfg hf hnc

theorem C4_backup_always_even_on_noop_witness :
    applySettings ⟨none, "", false⟩ [("weapon_dof", "5")] true
        ⟨true, true, "hello\n".data, false, [], false, []⟩ =
      (⟨true, true, "hello\n".data, false, ["hello\n".data], false, []⟩,
       ⟨false, "No changes applied (patterns may not match)", [], some "hello\n".data⟩) := by
  have h := (C4_backup_always_even_on_noop ⟨none, "", false⟩ [("weapon_dof", "5")] true
      ⟨true, true, "hello\n".data, false, [], false, []⟩ ⟨rfl, rfl⟩ rfl).2 (by decide)
  exact h.trans (by decide)

/-- C6: `temporary_writable` entered on a file whose read-only bit is set
restores the original attribute word on every exit path, whether the
wrapped action returns normally or raises, and the raised exception (if
any) propagates to the caller unchanged. -/
theorem C6_scoped_writable_restores (attrs0 : Nat) (action : Nat → Option String × Nat)
    (h : attrs0 &&& FILE_ATTRIBUTE_READONLY ≠ 0) :
    (temporary_writable attrs0 action).2 = attrs0 ∧
    (temporary_writable attrs0 action).1 = (action (clearReadonlyBit attrs0)).1 := by
  have hb : (attrs0 &&& FILE_ATTRIBUTE_READONLY != 0) = true := by
    simpa using h
  simp [temporary_writable, hb]

/-- An action that raises: it reports an exception and leaves the
attribute word it received. -/
def raisingAction : Nat → Option String × Nat := fun a => (some "boom", a)

theorem C6_scoped_writable_restores_witness :
    (temporary_writable 33 raisingAction).2 = 33 ∧
    (temporary_writable 33 raisingAction).1 = (raisingAction (clearReadonlyBit 33)).1 :=
  C6_scoped_writable_restores 33 raisingAction (by decide)

theorem firstHdrCode_none :
    ∀ (bs : List (List Nat)), (∀ b ∈ bs, b.headD 0 ≠ 2) → firstHdrCode bs = none := by
  intro bs
  induction bs with
  | nil => intro _; rfl
  | cons b t ih =>
    intro hb
    have h0 : b.headD 0 ≠ 2 := hb b (by simp)
    simp only [firstHdrCode, if_neg h0]
    exact ih (fun x hx => hb x (by simp [hx]))

/-- C8: the EDID HDR parser returns nothing for every input shorter than
256 bytes (base block only, or less), and returns nothing for every input
in which each full 128-byte extension block's first byte differs from
0x02 — such blocks are skipped and no data-block walk is entered. -/
theorem C8_short_or_non_cta_none :
    (∀ edid : List Nat, edid.length < 256 → parseHdrMaxLum edid = none) ∧
    (∀ edid : List Nat, (∀ b ∈ extBlocks edid, b.headD 0 ≠ 2) →
      parseHdrMaxLum edid = none) := by
  constructor
  · intro edid h
    simp [parseHdrMaxLum, h]
  · intro edid h
    unfold parseHdrMaxLum
    split
    · rfl
    · exact firstHdrCode_none _ h

set_option maxRecDepth 10000 in
theorem C8_short_or_non_cta_none_witness :
    parseHdrMaxLum (List.replicate 128 0) = none ∧
    parseHdrMaxLum (List.replicate 256 0) = none := by
  constructor
  · exact C8_short_or_non_cta_none.1 (List.replicate 128 0) (by decide)
  · exact C8_short_or_non_cta_none.2 (List.replicate 256 0) (by decide)

/-- A synthetic 128-byte CTA-861 extension block: tag 0x02, revision 3,
DTD offset 10; at data-block position 4 a header byte 229 = (7 << 5) | 5
(extended-tag block, payload length 5), extended tag 6 (HDR static
metadata), and max-luminance code 160 at header offset + 4. -/
def hdrExtBlock : List Nat :=
  [2, 3, 10, 0, 229, 6, 0, 0, 160, 0] ++ List.replicate 118 0

theorem chunk128_cons {f : Nat} {s : List Nat} (h : 128 ≤ s.length) :
    chunk128 (f + 1) s = s.take 128 :: chunk128 f (s.drop 128) := by
  simp [chunk128, h]

/-- C7: for every EDID whose extension area carries the synthetic HDR
block (after an arbitrary 128-byte base block, optionally preceded by a
non-CTA extension block which is skipped), the parser's structural stage
returns the max-luminance code 160 — the first such match wins — and the
source's conversion of that code, `round(50 * 2^(160/32))`, equals
1600 nits exactly. -/
theorem C7_hdr_code_160_gives_1600 (base junk : List Nat)
    (hb : base.length = 128) (hj : junk.length = 128) (hjh : junk.headD 0 ≠ 2) :
    parseHdrMaxLum (base ++ hdrExtBlock) = some 160 ∧
    parseHdrMaxLum (base ++ junk ++ hdrExtBlock) = some 160 ∧
    round ((50 : ℝ) * (2 : ℝ) ^ ((160 : ℝ) / 32)) = 1600 := by
  have hhdr : hdrExtBlock.length = 128 := by decide
  refine ⟨?_, ?_, ?_⟩
  · have hlen : (base ++ hdrExtBlock).length = 256 := by
      simp [List.length_append, hb, hhdr]
    have hdrop : (base ++ hdrExtBlock).drop 128 = hdrExtBlock := by
      rw [← hb, List.drop_left]
    unfold parseHdrMaxLum extBlocks
    rw [hlen, hdrop, if_neg (by norm_num)]
    decide
  · have hlen : (base ++ junk ++ hdrExtBlock).length = 384 := by
      simp [List.length_append, hb, hj, hhdr]
    have hdrop : (base ++ junk ++ hdrExtBlock).drop 128 = junk ++ hdrExtBlock := by
      rw [List.append_assoc, ← hb, List.drop_left]
    unfold parseHdrMaxLum extBlocks
    rw [hlen, hdrop, if_neg (by norm_num)]
    rw [chunk128_cons (by simp [List.length_append, hj, hhdr])]
    have htake : (junk ++ hdrExtBlock).take 128 = junk := by
      rw [← hj, List.take_left]
    have hdrop2 : (junk ++ hdrExtBlock).drop 128 = hdrExtBlock := by
      rw [← hj, List.drop_left]
    rw [htake, hdrop2]
    simp only [firstHdrCode, if_neg hjh]
    decide
  · have h5 : ((160 : ℝ) / 32) = ((5 : ℕ) : ℝ) := by norm_num
    rw [h5, Real.rpow_natCast]
    have h16 : (50 : ℝ) * 2 ^ (5 : ℕ) = ((1600 : ℕ) : ℝ) := by norm_num
    rw [h16, round_natCast]
    norm_num

set_option maxRecDepth 10000 in
theorem C7_hdr_code_160_gives_1600_witness :
    parseHdrMaxLum (List.replicate 128 0 ++ List.replicate 128 1 ++ hdrExtBlock)
      = some 160 :=
  (C7_hdr_code_160_gives_1600 (List.replicate 128 0) (List.replicate 128 1)
    (by decide) (by decide) (by decide)).2.1

/-- C1 counterexample: the config file is read-only before the call
(`readonly := true` in the initial state) and `os.replace` raises; after
the call the read-only bit is `false`.  This falsifies the claim's
conjunct "its read-only protection bit equals its pre-call value":
`_atomic_write` clears the bit before creating the temp file and no code
path restores it on failure. -/
theorem C1_cex_readonly_cleared_on_failure :
    (applySettings ⟨some FaultPoint.replace, "boom", false⟩ [("weapon_dof", "0")] true
        ⟨true, true, "GstRender.WeaponDOF 1\n".data, true, [], false, []⟩).1.readonly
      = false := by
  decide

/-- C1 amended: on any failure of the write sequence (temp-file creation,
temp write, or atomic replace) in a call that reached it, the temporary
file is removed, the target file's content equals the pre-call content,
and `apply_settings` returns a failure result (success `false`, message
`"Error: " ++ str(e)`) rather than raising; the read-only bit, however, is
not restored — after the failed call it is clear even when it was set
before the call. -/
theorem C1_write_failure_target_intact (f : Faults) (req : List (String × String))
    (ro : Bool) (st : FsState) (p : FaultPoint)
    (hcfg : st.configSet = true ∧ st.configExists = true)
    (hp : f.fail = some p)
    (hw : p = FaultPoint.mkstemp ∨ p = FaultPoint.tempWrite ∨ p = FaultPoint.replace)
    (hch : (applyLoop req st.content).1 ≠ st.content)
    (ht : st.tempExists = false) (htc : st.tempContent = []) :
    (applySettings f req ro st).2.success = false ∧
    (applySettings f req ro st).2.message = "Error: " ++ f.msg ∧
    (applySettings f req ro st).1.content = st.content ∧
    (applySettings f req ro st).1.tempExists = false ∧
    (applySettings f req ro st).1.readonly = false := by
  rw [applySettings_writeFault hcfg hp hw hch ht htc]
  exact ⟨rfl, rfl, rfl, rfl, rfl⟩

theorem C1_write_failure_target_intact_witness :
    (applySettings ⟨some FaultPoint.tempWrite, "disk full", false⟩ [("weapon_dof", "0")]
        true ⟨true, true, "GstRender.WeaponDOF 1\n".data, true, [], false, []⟩).2.success
        = false ∧
    (applySettings ⟨some FaultPoint.tempWrite, "disk full", false⟩ [("weapon_dof", "0")]
        true ⟨true, true, "GstRender.WeaponDOF 1\n".data, true, [], false, []⟩).2.message
        = "Error: " ++ "disk full" ∧
    (applySettings ⟨some FaultPoint.tempWrite, "disk full", false⟩ [("weapon_dof", "0")]
        true ⟨true, true, "GstRender.WeaponDOF 1\n".data, true, [], false, []⟩).1.content
        = "GstRender.WeaponDOF 1\n".data ∧
    (applySettings ⟨some FaultPoint.tempWrite, "disk full", false⟩ [("weapon_dof", "0")]
        true ⟨true, true, "GstRender.WeaponDOF 1\n".data, true, [], false, []⟩).1.tempExists
        = false ∧
    (applySettings ⟨some FaultPoint.tempWrite, "disk full", false⟩ [("weapon_dof", "0")]
        true ⟨true, true, "GstRender.WeaponDOF 1\n".data, true, [], false, []⟩).1.readonly
        = false :=
  C1_write_failure_target_intact ⟨some FaultPoint.tempWrite, "disk full", false⟩
    [("weapon_dof", "0")] true
    ⟨true, true, "GstRender.WeaponDOF 1\n".data, true, [], false, []⟩
    FaultPoint.tempWrite ⟨rfl, rfl⟩ rfl (Or.inr (Or.inl rfl)) (by decide) rfl rfl

/-- C10 counterexample: a call that applies a change with
`set_readonly = True` and a failing `FileProtector.set_readonly`
(re-protection failure) still reports success `true` and leaves the file
writable — the claim's "converted into a result dictionary with success
false" does not hold for re-protection failures, which `set_readonly`
swallows internally. -/
theorem C10_cex_protect_failure_still_success :
    (applySettings ⟨none, "", true⟩ [("weapon_dof", "0")] true
        ⟨true, true, "GstRender.WeaponDOF 1\n".data, false, [], false, []⟩).2.success
      = true ∧
    (applySettings ⟨none, "", true⟩ [("weapon_dof", "0")] true
        ⟨true, true, "GstRender.WeaponDOF 1\n".data, false, [], false, []⟩).1.readonly
      = false := by
  decide

/-- C10 amended: `apply_settings` never propagates an exception.  Every
failure of the backup copy, the file read, or the substitution step — and
every write-sequence failure in a call whose request changes the text —
is converted into a structured result with success `false` and message
`"Error: " ++ str(e)`; a re-protection failure, by contrast, is swallowed
inside `set_readonly` and the call still reports success `true`, leaving
the file writable. -/
theorem C10_structured_failure_results (f : Faults) (req : List (String × String))
    (ro : Bool) (st : FsState) (p : FaultPoint)
    (hcfg : st.configSet = true ∧ st.configExists = true) :
    (f.fail = some p →
      (p = FaultPoint.backupCopy ∨ p = FaultPoint.readFile ∨ p = FaultPoint.substitute) →
      (applySettings f req ro st).2 = ⟨false, "Error: " ++ f.msg, [], none⟩) ∧
    (f.fail = some p →
      (p = FaultPoint.mkstemp ∨ p = FaultPoint.tempWrite ∨ p = FaultPoint.replace) →
      (applyLoop req st.content).1 ≠ st.content →
      st.tempExists = false → st.tempContent = [] →
      (applySettings f req ro st).2 = ⟨false, "Error: " ++ f.msg, [], none⟩) ∧
    (f.fail = none → f.protectFails = true → ro = true →
      (applyLoop req st.content).1 ≠ st.content →
      (applySettings f req ro st).2.success = true ∧
      (applySettings f req ro st).1.readonly = false) := by
  refine ⟨?_, ?_, ?_⟩
  · intro hp he
    exact (applySettings_earlyFault hcfg hp he).1
  · intro hp hw hch ht htc
    rw [applySettings_writeFault hcfg hp hw hch ht htc]
  · intro hf hpf hro hch
    rw [applySettings_change hcfg hf hch]
    subst hro
    refine ⟨rfl, ?_⟩
    simp [hpf]

theorem C10_structured_failure_results_witness :
    (applySettings ⟨some FaultPoint.backupCopy, "io error", false⟩ [("weapon_dof", "0")]
        true ⟨true, true, "GstRender.WeaponDOF 1\n".data, false, [], false, []⟩).2
      = ⟨false, "Error: io error", [], none⟩ := by
  have h := (C10_structured_failure_results
    ⟨some FaultPoint.backupCopy, "io error", false⟩ [("weapon_dof", "0")] true
    ⟨true, true, "GstRender.WeaponDOF 1\n".data, false, [], false, []⟩
    FaultPoint.backupCopy ⟨rfl, rfl⟩).1 rfl (Or.inl rfl)
  exact h.trans (by decide)

/-- C9: when the file content decomposes into two or more occurrence sites
of a registered setting's pattern (for instance the same key on two or
more separate lines), a single fault-free apply call with that setting in
the request replaces the numeric literal at every site with the requested
value, preserving every site's leading text, key and whitespace (regex
group 1) byte for byte. -/
theorem C9_multiline_all_sites_replaced
    (f : Faults) (id : String) (s : ConfigSetting) (v : String) (ro : Bool)
    (segs : List (List Char × Site)) (tail : List Char) (st : FsState)
    (hid : SETTINGS.lookup id = some s)
    (hcfg : st.configSet = true ∧ st.configExists = true)
    (hf : f.fail = none)
    (hst : st.content = buildContent s.key.data segs tail)
    (hdec : GoodDecomp s.key.data segs tail)
    (hlen : 2 ≤ segs.length) :
    (applySettings f [(id, v)] ro st).1.content =
      buildSub s.key.data v.data segs tail := by
  have hsub : subAll s.key.data v.data (buildContent s.key.data segs tail) =
      buildSub s.key.data v.data segs tail :=
    subAll_goodDecomp segs tail hdec
  have hloop := applyLoop_single (v := v) hid st.content
  by_cases hnc : subAll s.key.data v.data st.content = st.content
  · have h1 : (applyLoop [(id, v)] st.content).1 = st.content := by
      rw [hloop]
      simp [hnc]
    rw [applySettings_nochange hcfg hf h1]
    calc st.content = subAll s.key.data v.data st.content := hnc.symm
      _ = subAll s.key.data v.data (buildContent s.key.data segs tail) := by rw [← hst]
      _ = buildSub s.key.data v.data segs tail := hsub
  · have h1 : (applyLoop [(id, v)] st.content).1 ≠ st.content := by
      rw [hloop]
      simpa using hnc
    rw [applySettings_change hcfg hf h1]
    show (applyLoop [(id, v)] st.content).1 = _
    rw [hloop]
    show subAll s.key.data v.data st.content = _
    rw [hst]
    exact hsub

theorem C9_multiline_all_sites_replaced_witness :
    (applySettings ⟨none, "", false⟩ [("weapon_dof", "0")] true
        ⟨true, true, "GstRender.WeaponDOF 1\nGstRender.WeaponDOF 2\n".data,
         false, [], false, []⟩).1.content =
      "GstRender.WeaponDOF 0\nGstRender.WeaponDOF 0\n".data := by
  have h := C9_multiline_all_sites_replaced ⟨none, "", false⟩ "weapon_dof"
    ⟨"GstRender.WeaponDOF", "0", "Weapon Depth of Field"⟩ "0" true
    [([], ⟨[' '], ['1']⟩), (['\n'], ⟨[' '], ['2']⟩)] ['\n']
    ⟨true, true, "GstRender.WeaponDOF 1\nGstRender.WeaponDOF 2\n".data,
     false, [], false, []⟩
    (by decide) ⟨rfl, rfl⟩ rfl (by decide) (by decide) (by decide)
  exact h.trans (by decide)

/-- C2 counterexample: the first apply call succeeds (success `true`, one
change recorded), but the identical second call reports success `false`
with an empty change set — not success with the same change set as the
claim states — because re-substituting the identical value leaves the text
unchanged and `apply_settings` takes the no-changes path. -/
theorem C2_cex_second_apply_not_success :
    (applySettings ⟨none, "", false⟩ [("weapon_dof", "0")] true
        ⟨true, true, "GstRender.WeaponDOF 1\n".data, false, [], false, []⟩).2.success
      = true ∧
    (applySettings ⟨none, "", false⟩ [("weapon_dof", "0")] true
        (applySettings ⟨none, "", false⟩ [("weapon_dof", "0")] true
          ⟨true, true, "GstRender.WeaponDOF 1\n".data, false, [], false,
            []⟩).1).2.success = false ∧
    (applySettings ⟨none, "", false⟩ [("weapon_dof", "0")] true
        (applySettings ⟨none, "", false⟩ [("weapon_dof", "0")] true
          ⟨true, true, "GstRender.WeaponDOF 1\n".data, false, [], false,
            []⟩).1).2.changes = [] := by
  decide

/-- C2 amended: for a single-setting request over content that decomposes
into matched sites of that setting's pattern, and still decomposes after
the substitution (the written value re-matches exactly, as pre-formatted
numeric values do on well-formed profile lines), a successful first apply
followed by an identical second call leaves the file bytes unchanged, and
the second call returns success `false` with the no-changes message, an
empty change set and a fresh backup — not success with the original
change set. -/
theorem C2_second_identical_apply_no_change (f : Faults) (id : String)
    (s : ConfigSetting) (v : String) (ro : Bool)
    (segs : List (List Char × Site)) (tail : List Char) (st : FsState)
    (hid : SETTINGS.lookup id = some s)
    (hcfg : st.configSet = true ∧ st.configExists = true)
    (hf : f.fail = none)
    (hst : st.content = buildContent s.key.data segs tail)
    (hdec : GoodDecomp s.key.data segs tail)
    (hdec2 : GoodDecomp s.key.data (sitesSub v.data segs) tail)
    (hne : buildSub s.key.data v.data segs tail ≠ buildContent s.key.data segs tail) :
    (applySettings f [(id, v)] ro st).2.success = true ∧
    (applySettings f [(id, v)] ro (applySettings f [(id, v)] ro st).1).1.content =
      (applySettings f [(id, v)] ro st).1.content ∧
    (applySettings f [(id, v)] ro (applySettings f [(id, v)] ro st).1).2 =
      ⟨false, "No changes applied (patterns may not match)", [],
       some (applySettings f [(id, v)] ro st).1.content⟩ := by
  have hsub1 : subAll s.key.data v.data st.content =
      buildSub s.key.data v.data segs tail := by
    rw [hst]
    exact subAll_goodDecomp segs tail hdec
  have hch1 : (applyLoop [(id, v)] st.content).1 ≠ st.content := by
    rw [applyLoop_single hid]
    show subAll s.key.data v.data st.content ≠ st.content
    rw [hsub1, hst]
    exact hne
  have happ1 := @applySettings_change f [(id, v)] ro st hcfg hf hch1
  have h1succ : (applySettings f [(id, v)] ro st).2.success = true := by
    rw [happ1]
  have hcfg1 : (applySettings f [(id, v)] ro st).1.configSet = true ∧
      (applySettings f [(id, v)] ro st).1.configExists = true := by
    rw [happ1]
    exact hcfg
  have hc1 : (applySettings f [(id, v)] ro st).1.content =
      buildSub s.key.data v.data segs tail := by
    rw [happ1]
    show (applyLoop [(id, v)] st.content).1 = _
    rw [applyLoop_single hid]
    exact hsub1
  have hfix : subAll s.key.data v.data (buildSub s.key.data v.data segs tail) =
      buildSub s.key.data v.data segs tail := by
    conv_lhs => rw [← buildContent_sitesSub s.key.data v.data segs tail]
    rw [subAll_goodDecomp _ _ hdec2, buildSub_sitesSub]
  have hnc2 : (applyLoop [(id, v)] (applySettings f [(id, v)] ro st).1.content).1 =
      (applySettings f [(id, v)] ro st).1.content := by
    rw [hc1, applyLoop_single hid]
    simp [hfix]
  have happ2 := @applySettings_nochange f [(id, v)] ro
    ((applySettings f [(id, v)] ro st).1) hcfg1 hf hnc2
  refine ⟨h1succ, ?_, ?_⟩
  · rw [happ2]
  · rw [happ2]

theorem C2_second_identical_apply_no_change_witness :
    (applySettings ⟨none, "", false⟩ [("weapon_dof", "0")] true
        ⟨true, true, "GstRender.WeaponDOF 1\n".data, false, [], false, []⟩).2.success
      = true ∧
    (applySettings ⟨none, "", false⟩ [("weapon_dof", "0")] true
        (applySettings ⟨none, "", false⟩ [("weapon_dof", "0")] true
          ⟨true, true, "GstRender.WeaponDOF 1\n".data, false, [], false,
            []⟩).1).1.content =
      (applySettings ⟨none, "", false⟩ [("weapon_dof", "0")] true
        ⟨true, true, "GstRender.WeaponDOF 1\n".data, false, [], false, []⟩).1.content ∧
    (applySettings ⟨none, "", false⟩ [("weapon_dof", "0")] true
        (applySettings ⟨none, "", false⟩ [("weapon_dof", "0")] true
          ⟨true, true, "GstRender.WeaponDOF 1\n".data, false, [], false, []⟩).1).2 =
      ⟨false, "No changes applied (patterns may not match)", [],
       some (applySettings ⟨none, "", false⟩ [("weapon_dof", "0")] true
          ⟨true, true, "GstRender.WeaponDOF 1\n".data, false, [], false,
            []⟩).1.content⟩ :=
  C2_second_identical_apply_no_change ⟨none, "", false⟩ "weapon_dof"
    ⟨"GstRender.WeaponDOF", "0", "Weapon Depth of Field"⟩ "0" true
    [([], ⟨[' '], ['1']⟩)] ['\n']
    ⟨true, true, "GstRender.WeaponDOF 1\n".data, false, [], false, []⟩
    (by decide) ⟨rfl, rfl⟩ rfl (by decide) (by decide) (by decide) (by decide)

/-- C3 counterexample: the file contains the registered key followed by
the text `1.2.5`; applying the valid pre-formatted integer value `34`
succeeds, but `get_current_values` then returns `34.5`, not the applied
value `34`: the pattern matched `1.2`, the replacement left `.5` adjacent
to the written value, and the read-back match extends across it. -/
theorem C3_cex_readback_differs :
    (applySettings ⟨none, "", false⟩ [("weapon_dof", "34")] true
        ⟨true, true, "GstRender.WeaponDOF 1.2.5\n".data, false, [], false,
          []⟩).2.success = true ∧
    (getCurrentValues (applySettings ⟨none, "", false⟩ [("weapon_dof", "34")] true
        ⟨true, true, "GstRender.WeaponDOF 1.2.5\n".data, false, [], false,
          []⟩).1).lookup "weapon_dof" = some (some "34.5") ∧
    (getCurrentValues (applySettings ⟨none, "", false⟩ [("weapon_dof", "34")] true
        ⟨true, true, "GstRender.WeaponDOF 1.2.5\n".data, false, [], false,
          []⟩).1).lookup "weapon_dof" ≠ some (some "34") := by
  refine ⟨by decide, by decide, ?_⟩
  decide

/-- C3 amended: for a single-setting request whose value re-matches
exactly at its site (no adjacent text extends the match, as on well-formed
profile lines), a successful apply followed by `get_current_values`
returns exactly the applied value for the requested id, and a second
registered setting present in the file keeps the value it had before the
call. -/
theorem C3_apply_then_read_back (f : Faults) (id1 id2 : String)
    (s1 s2 : ConfigSetting) (v : String) (ro : Bool)
    (pre w1 n1 mid w2 n2 post : List Char) (st : FsState)
    (hid1 : SETTINGS.lookup id1 = some s1)
    (hid2 : SETTINGS.lookup id2 = some s2)
    (hcfg : st.configSet = true ∧ st.configExists = true)
    (hf : f.fail = none)
    (hst : st.content = buildContent s1.key.data [(pre, ⟨w1, n1⟩)]
      (mid ++ s2.key.data ++ w2 ++ n2 ++ post))
    (hdec1 : GoodDecomp s1.key.data [(pre, ⟨w1, n1⟩)]
      (mid ++ s2.key.data ++ w2 ++ n2 ++ post))
    (hdec1v : GoodDecomp s1.key.data [(pre, ⟨w1, v.data⟩)]
      (mid ++ s2.key.data ++ w2 ++ n2 ++ post))
    (hdec2 : GoodDecomp s2.key.data
      [(pre ++ s1.key.data ++ w1 ++ n1 ++ mid, ⟨w2, n2⟩)] post)
    (hdec2v : GoodDecomp s2.key.data
      [(pre ++ s1.key.data ++ w1 ++ v.data ++ mid, ⟨w2, n2⟩)] post)
    (hnv : v.data ≠ n1) :
    (applySettings f [(id1, v)] ro st).2.success = true ∧
    (getCurrentValues (applySettings f [(id1, v)] ro st).1).lookup id1 =
      some (some v) ∧
    (getCurrentValues (applySettings f [(id1, v)] ro st).1).lookup id2 =
      (getCurrentValues st).lookup id2 := by
  have hsub1 : subAll s1.key.data v.data st.content =
      buildSub s1.key.data v.data [(pre, ⟨w1, n1⟩)]
        (mid ++ s2.key.data ++ w2 ++ n2 ++ post) := by
    rw [hst]
    exact subAll_goodDecomp _ _ hdec1
  have hch : (applyLoop [(id1, v)] st.content).1 ≠ st.content := by
    rw [applyLoop_single hid1]
    show subAll s1.key.data v.data st.content ≠ st.content
    rw [hsub1, hst]
    intro heq
    have h1 : (pre ++ s1.key.data ++ w1) ++
        (v.data ++ (mid ++ s2.key.data ++ w2 ++ n2 ++ post)) =
        (pre ++ s1.key.data ++ w1) ++
        (n1 ++ (mid ++ s2.key.data ++ w2 ++ n2 ++ post)) := by
      simpa [buildContent, buildSub, List.append_assoc] using heq
    exact hnv (List.append_cancel_right (List.append_cancel_left h1))
  have happ1 := @applySettings_change f [(id1, v)] ro st hcfg hf hch
  have h1succ : (applySettings f [(id1, v)] ro st).2.success = true := by
    rw [happ1]
  have hcfg1 : (applySettings f [(id1, v)] ro st).1.configSet = true ∧
      (applySettings f [(id1, v)] ro st).1.configExists = true := by
    rw [happ1]
    exact hcfg
  have hc1 : (applySettings f [(id1, v)] ro st).1.content =
      buildSub s1.key.data v.data [(pre, ⟨w1, n1⟩)]
        (mid ++ s2.key.data ++ w2 ++ n2 ++ post) := by
    rw [happ1]
    show (applyLoop [(id1, v)] st.content).1 = _
    rw [applyLoop_single hid1]
    exact hsub1
  have hc1v : (applySettings f [(id1, v)] ro st).1.content =
      buildContent s1.key.data [(pre, ⟨w1, v.data⟩)]
        (mid ++ s2.key.data ++ w2 ++ n2 ++ post) := by
    rw [hc1]
    simp [buildSub, buildContent]
  refine ⟨h1succ, ?_, ?_⟩
  · rw [getCurrentValues_lookup hcfg1 hid1, hc1v,
      findFirst_goodDecomp_head hdec1v]
    have hmk : String.mk v.data = v := by cases v; rfl
    simp [hmk]
  · have hbefore : (getCurrentValues st).lookup id2 = some (some (String.mk n2)) := by
      rw [getCurrentValues_lookup hcfg hid2]
      have hre : st.content = buildContent s2.key.data
          [(pre ++ s1.key.data ++ w1 ++ n1 ++ mid, ⟨w2, n2⟩)] post := by
        rw [hst]
        simp [buildContent, List.append_assoc]
      rw [hre, findFirst_goodDecomp_head hdec2]
      rfl
    have hafter : (getCurrentValues (applySettings f [(id1, v)] ro st).1).lookup id2 =
        some (some (String.mk n2)) := by
      rw [getCurrentValues_lookup hcfg1 hid2]
      have hre : (applySettings f [(id1, v)] ro st).1.content =
          buildContent s2.key.data
            [(pre ++ s1.key.data ++ w1 ++ v.data ++ mid, ⟨w2, n2⟩)] post := by
        rw [hc1]
        simp [buildSub, buildContent, List.append_assoc]
      rw [hre, findFirst_goodDecomp_head hdec2v]
      rfl
    rw [hbefore, hafter]

theorem C3_apply_then_read_back_witness :
    (applySettings ⟨none, "", false⟩ [("weapon_dof", "0")] true
        ⟨true, true, "GstRender.WeaponDOF 1\nGstRender.FilmGrain 1\n".data,
          false, [], false, []⟩).2.success = true ∧
    (getCurrentValues (applySettings ⟨none, "", false⟩ [("weapon_dof", "0")] true
        ⟨true, true, "GstRender.WeaponDOF 1\nGstRender.FilmGrain 1\n".data,
          false, [], false, []⟩).1).lookup "weapon_dof" = some (some "0") ∧
    (getCurrentValues (applySettings ⟨none, "", false⟩ [("weapon_dof", "0")] true
        ⟨true, true, "GstRender.WeaponDOF 1\nGstRender.FilmGrain 1\n".data,
          false, [], false, []⟩).1).lookup "film_grain" =
      (getCurrentValues
        ⟨true, true, "GstRender.WeaponDOF 1\nGstRender.FilmGrain 1\n".data,
          false, [], false, []⟩).lookup "film_grain" :=
  C3_apply_then_read_back ⟨none, "", false⟩ "weapon_dof" "film_grain"
    ⟨"GstRender.WeaponDOF", "0", "Weapon Depth of Field"⟩
    ⟨"GstRender.FilmGrain", "0", "Film Grain"⟩ "0" true
    [] [' '] ['1'] ['\n'] [' '] ['1'] ['\n']
    ⟨true, true, "GstRender.WeaponDOF 1\nGstRender.FilmGrain 1\n".data,
      false, [], false, []⟩
    (by decide) (by decide) ⟨rfl, rfl⟩ rfl (by decide) (by decide) (by decide)
    (by decide) (by decide) (by decide)
